import Mathlib

/-!
Verification of the cvChain chaincode (src/cvChain/cvChain.go).

Shallow embedding of the `cvChain` Hyperledger Fabric chaincode.  The Go
program (`package main`) defines a `SimpleAsset` chaincode with a dispatcher
`Invoke` and four operations: `addRecord`, `getRecord`, `Encrypter`
(operation name `encRecord`) and `Decrypter` (operation name `decRecord`).

Modelling choices, all mirroring the Go source:

* Go byte slices (`[]byte`) and Go strings are the same data (a sequence of
  bytes); both are modelled as Lean `String`, one `Char` per byte.
* The ledger (`stub.PutState` / `stub.GetState`) is an external collaborator.
  It is modelled as an association list `List (String × String)` in which a
  put conses a fresh binding and a get returns the most recent binding
  (`List.lookup` finds the first match), which realises the overwrite
  semantics of a key-value store.  Collaborator faults are modelled by the
  fault sets `putFails` / `getFails`: a put (resp. get) on a key in the set
  returns an error exactly as the Go interface allows.
* Every ledger read/write and every encryption/decryption performed is
  recorded in the `trace` field of the state, so "the operation performed no
  ledger read or write and no cryptographic work" is expressed as the final
  state being equal to (in particular having the same trace as) the initial
  state.
* The transient map (`stub.GetTransient`) is delivered per call; its
  retrieval can fail, so a call receives `Except String TMap`.
* The BCCSP/AES-256 cipher is an external collaborator
  (`entities.NewAES256EncrypterEntity`, and the helper functions
  `encryptAndPutState` / `getStateAndDecrypt` which the repository references
  but whose source is not part of it).  Those parts are modelled from the
  spec, see the doc comments on `mkAES256Entity`, `encryptAndPutState` and
  `getStateAndDecrypt`.  The cipher itself is a parameter (`Cipher`): an
  encryption function and a decryption function that may fail.
-/

namespace CvChain

/-- Go `strings.Split(s, ":")`, specialised to the one-character separator
used by the chaincode: accumulator-based scan over the characters. -/
def splitColonAux : List Char → List Char → List String
  | [], acc => [String.mk acc.reverse]
  | c :: cs, acc =>
    if c = ':' then String.mk acc.reverse :: splitColonAux cs []
    else splitColonAux cs (c :: acc)

/-- Go `strings.Split(s, ":")`. -/
def splitColon (s : String) : List String :=
  splitColonAux s.data []

/-- The characters of `s` strictly before its first colon (the whole of `s`
when it has no colon).  Specification-side description of `(splitColon s).head`. -/
def beforeColon (s : String) : String :=
  String.mk (s.data.takeWhile (fun c => c != ':'))

/-- `s` contains no colon character. -/
def colonFree (s : String) : Prop :=
  ':' ∉ s.data

instance (s : String) : Decidable (colonFree s) := by
  unfold colonFree; infer_instance

/-- One observable collaborator interaction: a ledger write, a ledger read,
an encryption, or a decryption. -/
inductive LedgerOp where
  | put (key value : String)
  | get (key : String)
  | encOp
  | decOp
deriving DecidableEq, Repr

/-- The world the chaincode acts on: the ledger (most recent binding first),
the collaborator fault sets, and the trace of performed interactions. -/
structure Stub where
  ledger : List (String × String)
  putFails : List String
  getFails : List String
  trace : List LedgerOp
deriving DecidableEq, Repr

/-- `stub.PutState key value`: fails if the ledger collaborator faults on
`key`, otherwise conses the new binding (last-writer-wins via `lookup`). -/
def putState (st : Stub) (key value : String) : Except String Unit × Stub :=
  if st.putFails.contains key then (.error "WriteFault", st)
  else (.ok (), { st with
    ledger := (key, value) :: st.ledger
    trace := LedgerOp.put key value :: st.trace })

/-- `stub.GetState key`: fails if the ledger collaborator faults on `key`;
otherwise returns the most recent value, `none` signalling absence
(Go `nil`). -/
def getState (st : Stub) (key : String) : Except String (Option String) × Stub :=
  if st.getFails.contains key then (.error "ReadFault", st)
  else (.ok (st.ledger.lookup key), { st with trace := LedgerOp.get key :: st.trace })

/-- The `DECKEY` transient-map label. -/
def DECKEY : String := "DECKEY"

/-- The `ENCKEY` transient-map label. -/
def ENCKEY : String := "ENCKEY"

/-- The `IV` transient-map label. -/
def IV : String := "IV"

/-- The transient map `map[string][]byte` delivered with a proposal. -/
def TMap := List (String × String)

/-- Go map indexing `tMap[k]`: the zero value (nil byte slice, modelled as
the empty string) when the label is absent. -/
def tGet (t : TMap) (k : String) : String :=
  (List.lookup k t).getD ""

/-- Membership test `_, in := tMap[k]`. -/
def tHas (t : TMap) (k : String) : Bool :=
  (List.lookup k t).isSome

/-- The AES-256 cipher capability (the `bccspInst` field of `SimpleAsset`
together with the entity encrypt/decrypt methods), an external
collaborator: `enc key iv plaintext` yields ciphertext, `dec key iv
ciphertext` yields the plaintext or `none` on a format/integrity fault. -/
structure Cipher where
  enc : String → String → String → String
  dec : String → String → String → Option String

/-- A constructed encrypter/decrypter entity: the key and IV it is bound to. -/
structure Entity where
  key : String
  iv : String
deriving DecidableEq, Repr

/-- Modelled from the spec: `entities.NewAES256EncrypterEntity` is an
external collaborator (`newCipher(key, iv) -> CipherContext | InitFault`);
construction fails on a bad key length for AES-256 (32 bytes), the
`CryptoInitError` of the error taxonomy. -/
def mkAES256Entity (key iv : String) : Except String Entity :=
  if key.length = 32 then .ok { key := key, iv := iv }
  else .error "invalid key length for AES-256"

/-- Modelled from the spec: the helper `encryptAndPutState` referenced by the
source but not contained in it serialises nothing itself — it encrypts the
cleartext bytes under the entity key/IV and writes the ciphertext to the
ledger under the given key. -/
def encryptAndPutState (c : Cipher) (st : Stub) (ent : Entity) (key cleartext : String) :
    Except String Unit × Stub :=
  let ciphertext := c.enc ent.key ent.iv cleartext
  let st1 := { st with trace := LedgerOp.encOp :: st.trace }
  putState st1 key ciphertext

/-- Modelled from the spec: the helper `getStateAndDecrypt` referenced by the
source but not contained in it fetches the ciphertext bytes for the key
(`NotFoundError` if absent), then decrypts them (a cipher format fault is the
`DecryptionError`). -/
def getStateAndDecrypt (c : Cipher) (st : Stub) (ent : Entity) (key : String) :
    Except String String × Stub :=
  match getState st key with
  | (.error e, st1) => (.error e, st1)
  | (.ok none, st1) => (.error "no ciphertext to decrypt", st1)
  | (.ok (some ciphertext), st1) =>
    let st2 := { st1 with trace := LedgerOp.decOp :: st1.trace }
    match c.dec ent.key ent.iv ciphertext with
    | none => (.error "decryption failure", st2)
    | some cleartext => (.ok cleartext, st2)

/-- `addRecord` (cvChain.go lines 88–99): arity check, composite key
`args[0] + ":" + args[1]`, composite value `args[2] + ":" + args[3]`,
`PutState`; a put fault is reported as `Failed to set asset: args[0]`. -/
def addRecord (st : Stub) (args : List String) : Except String String × Stub :=
  if args.length ≠ 4 then
    (.error "Incorrect arguments. Expecting a key and a value", st)
  else
    let key := args.getD 0 "" ++ ":" ++ args.getD 1 ""
    let value := args.getD 2 "" ++ ":" ++ args.getD 3 ""
    match putState st key value with
    | (.error _, st1) => (.error ("Failed to set asset: " ++ args.getD 0 ""), st1)
    | (.ok _, st1) => (.ok value, st1)

/-- `getRecord` (cvChain.go lines 102–117): arity check, composite key,
`GetState`, split the stored bytes on `":"` and return the first component;
`nil` (absent) value is `Asset not found: args[0]`. -/
def getRecord (st : Stub) (args : List String) : Except String String × Stub :=
  if args.length ≠ 2 then
    (.error "Incorrect arguments. Expecting a key", st)
  else
    let key := args.getD 0 "" ++ ":" ++ args.getD 1 ""
    match getState st key with
    | (.error e, st1) =>
      (.error ("Failed to get asset: " ++ args.getD 0 "" ++ " with error: " ++ e), st1)
    | (.ok none, st1) => (.error ("Asset not found: " ++ args.getD 0 ""), st1)
    | (.ok (some value), st1) => (.ok ((splitColon value).headD ""), st1)

/-- `Encrypter` (cvChain.go lines 122–143): constructs the AES-256 entity
first, then checks the arity, then encrypts the composite value and puts the
ciphertext; returns the plaintext composite value. -/
def Encrypter (c : Cipher) (st : Stub) (args : List String) (encKey iv : String) :
    Except String String × Stub :=
  match mkAES256Entity encKey iv with
  | .error e => (.error ("entities.NewAES256EncrypterEntity failed, err " ++ e), st)
  | .ok ent =>
    if args.length ≠ 4 then
      (.error "Expected 4 parameters to function Encrypter", st)
    else
      let key := args.getD 0 "" ++ ":" ++ args.getD 1 ""
      let value := args.getD 2 "" ++ ":" ++ args.getD 3 ""
      match encryptAndPutState c st ent key value with
      | (.error e, st1) => (.error ("encryptAndPutState failed, err " ++ e), st1)
      | (.ok _, st1) => (.ok value, st1)

/-- `Decrypter` (cvChain.go lines 147–168): constructs the AES-256 entity
first, then checks the arity, then fetches and decrypts the stored
ciphertext and returns the first `":"`-separated component. -/
def Decrypter (c : Cipher) (st : Stub) (args : List String) (decKey iv : String) :
    Except String String × Stub :=
  match mkAES256Entity decKey iv with
  | .error e => (.error ("entities.NewAES256EncrypterEntity failed, err " ++ e), st)
  | .ok ent =>
    if args.length ≠ 2 then
      (.error "Expected 2 parameters to function Decrypter", st)
    else
      let key := args.getD 0 "" ++ ":" ++ args.getD 1 ""
      match getStateAndDecrypt c st ent key with
      | (.error e, st1) => (.error ("getStateAndDecrypt failed, err " ++ e), st1)
      | (.ok cleartext, st1) => (.ok ((splitColon cleartext).headD ""), st1)

/-- A `peer.Response`: `shim.Success(payload)` or `shim.Error(msg)`. -/
inductive Response where
  | success (payload : String)
  | error (msg : String)
deriving DecidableEq, Repr

/-- Lift an operation `(result, err)` pair to a `peer.Response` the way the
tail of `Invoke` does. -/
def wrapResult : Except String String × Stub → Response × Stub
  | (.error e, st) => (.error e, st)
  | (.ok r, st) => (.success r, st)

/-- `Invoke` (cvChain.go lines 45–85): retrieves the transient map (failing
the whole call if that fails), dispatches on the function name, checks
`ENCKEY`/`DECKEY` presence before delegating to `Encrypter`/`Decrypter`, and
rejects unknown names.  The cipher `c` models the `bccspInst` capability. -/
def Invoke (c : Cipher) (st : Stub) (transient : Except String TMap)
    (fn : String) (args : List String) : Response × Stub :=
  match transient with
  | .error e => (.error ("Could not retrieve transient, err " ++ e), st)
  | .ok tMap =>
    if fn = "addRecord" then wrapResult (addRecord st args)
    else if fn = "getRecord" then wrapResult (getRecord st args)
    else if fn = "encRecord" then
      if tHas tMap ENCKEY then
        wrapResult (Encrypter c st args (tGet tMap ENCKEY) (tGet tMap IV))
      else (.error ("Expected transient encryption key " ++ ENCKEY), st)
    else if fn = "decRecord" then
      if tHas tMap DECKEY then
        wrapResult (Decrypter c st args (tGet tMap DECKEY) (tGet tMap IV))
      else (.error ("Expected transient decryption key " ++ DECKEY), st)
    else (.error ("Unsupported function " ++ fn), st)

/-! ## Properties of the colon-split -/

theorem splitColonAux_headD (cs : List Char) : ∀ acc : List Char,
    (splitColonAux cs acc).head?.getD ""
      = String.mk (acc.reverse ++ cs.takeWhile (fun c => c != ':')) := by
  induction cs with
  | nil => intro acc; simp [splitColonAux]
  | cons c cs ih =>
    intro acc
    by_cases hc : c = ':'
    · subst hc; simp [splitColonAux, List.takeWhile]
    · have hb : (c != ':') = true := by simpa using hc
      rw [splitColonAux, if_neg hc, ih (c :: acc)]
      simp [List.takeWhile, hb]

theorem splitColon_headD (s : String) : (splitColon s).head?.getD "" = beforeColon s := by
  unfold splitColon beforeColon
  rw [splitColonAux_headD]
  simp

theorem splitColonAux_ne_nil (cs : List Char) : ∀ acc : List Char, splitColonAux cs acc ≠ [] := by
  induction cs with
  | nil => intro acc; simp [splitColonAux]
  | cons c cs ih =>
    intro acc
    by_cases hc : c = ':'
    · subst hc; simp [splitColonAux]
    · simp [splitColonAux, hc, ih]

theorem takeWhile_append_colon (l2 : List Char) : ∀ l1 : List Char, ':' ∉ l1 →
    (l1 ++ ':' :: l2).takeWhile (fun c => c != ':') = l1 := by
  intro l1
  induction l1 with
  | nil => intro _; simp [List.takeWhile]
  | cons a l1 ih =>
    intro h
    have ha : a ≠ ':' := fun hh => h (by simp [hh])
    have hb : (a != ':') = true := by simpa using ha
    simp [List.takeWhile, hb]
    exact ih (fun hh => h (by simp [hh]))

theorem takeWhile_of_mem_colon (l2 : List Char) : ∀ l1 : List Char, ':' ∈ l1 →
    (l1 ++ l2).takeWhile (fun c => c != ':') = l1.takeWhile (fun c => c != ':') := by
  intro l1
  induction l1 with
  | nil => intro h; cases h
  | cons a l1 ih =>
    intro h
    by_cases ha : a = ':'
    · subst ha; simp [List.takeWhile]
    · have hb : (a != ':') = true := by simpa using ha
      have hmem : ':' ∈ l1 := by
        rcases List.mem_cons.mp h with h1 | h1
        · exact absurd h1.symm ha
        · exact h1
      simp [List.takeWhile, hb, ih hmem]

theorem data_append3 (a b c : String) : (a ++ b ++ c).data = a.data ++ b.data ++ c.data := by
  simp [String.data_append]

theorem beforeColon_append (f1 f2 : String) (h : colonFree f1) :
    beforeColon (f1 ++ ":" ++ f2) = f1 := by
  unfold beforeColon
  rw [data_append3]
  have hcol : (":" : String).data = [':'] := rfl
  rw [hcol, List.append_assoc, List.singleton_append, takeWhile_append_colon _ _ h]

theorem beforeColon_of_colonFree (s : String) (h : colonFree s) : beforeColon s = s := by
  unfold beforeColon
  have hs : s.data.takeWhile (fun c => c != ':') = s.data := by
    apply List.takeWhile_eq_self_iff.mpr
    intro a ha
    have : a ≠ ':' := fun hh => h (hh ▸ ha)
    simpa using this
  rw [hs]

theorem colonFree_beforeColon (s : String) : colonFree (beforeColon s) := by
  intro hmem
  exact absurd (List.mem_takeWhile_imp hmem) (by simp)

theorem beforeColon_append_of_mem (f1 f2 : String) (h : ':' ∈ f1.data) :
    beforeColon (f1 ++ ":" ++ f2) = beforeColon f1 := by
  unfold beforeColon
  rw [data_append3, List.append_assoc, takeWhile_of_mem_colon _ _ h]

/-! ## Concrete fixtures -/

/-- A cipher whose encryption is the identity and whose decryption always
succeeds; it trivially satisfies the decrypt-inverts-encrypt contract. -/
def idCipher : Cipher := ⟨fun _ _ pt => pt, fun _ _ ct => some ct⟩

/-- The pristine world: empty ledger, no collaborator faults, empty trace. -/
def st0 : Stub := ⟨[], [], [], []⟩

/-- A 32-byte (valid AES-256) key. -/
def aesKey : String := "0123456789abcdef0123456789abcdef"

/-! ## Small stepping lemmas for the collaborators -/

theorem putState_ok (st : Stub) (key value : String)
    (h : key ∉ st.putFails) :
    putState st key value
      = (.ok (), { st with ledger := (key, value) :: st.ledger,
                           trace := LedgerOp.put key value :: st.trace }) := by
  simp [putState, h]

theorem getState_found (st : Stub) (key v : String)
    (hg : key ∉ st.getFails)
    (hv : List.lookup key st.ledger = some v) :
    getState st key
      = (.ok (some v), { st with trace := LedgerOp.get key :: st.trace }) := by
  simp [getState, hg, hv, List.lookup]

/-! ## The claims -/

/-- C1.  For every namespace, id, field1 and field2, each a string containing
no colon, calling `addRecord(namespace, id, field1, field2)` and then
`getRecord(namespace, id)` succeeds and returns field1 unchanged (on a ledger
that does not fault on the composite key). -/
theorem addRecord_getRecord_roundtrip (st : Stub) (ns id f1 f2 : String)
    (_hns : colonFree ns) (_hid : colonFree id) (h1 : colonFree f1) (_h2 : colonFree f2)
    (hput : (ns ++ ":" ++ id) ∉ st.putFails)
    (hget : (ns ++ ":" ++ id) ∉ st.getFails) :
    (addRecord st [ns, id, f1, f2]).1 = .ok (f1 ++ ":" ++ f2) ∧
    (getRecord (addRecord st [ns, id, f1, f2]).2 [ns, id]).1 = .ok f1 := by
  have hadd : addRecord st [ns, id, f1, f2]
      = (.ok (f1 ++ ":" ++ f2),
         { st with ledger := (ns ++ ":" ++ id, f1 ++ ":" ++ f2) :: st.ledger,
                   trace := LedgerOp.put (ns ++ ":" ++ id) (f1 ++ ":" ++ f2) :: st.trace }) := by
    simp [addRecord, putState_ok st _ _ hput]
  refine ⟨by rw [hadd], ?_⟩
  rw [hadd]
  simp [getRecord, getState, hget, List.lookup, splitColon_headD,
        beforeColon_append f1 f2 h1]

/-- Witness for C1 at `("acct", "7", "alice", "100")`. -/
theorem addRecord_getRecord_roundtrip_witness :
    (addRecord st0 ["acct", "7", "alice", "100"]).1 = .ok "alice:100" ∧
    (getRecord (addRecord st0 ["acct", "7", "alice", "100"]).2 ["acct", "7"]).1
      = .ok "alice" :=
  addRecord_getRecord_roundtrip st0 "acct" "7" "alice" "100"
    (by decide) (by decide) (by decide) (by decide) (by decide) (by decide)

/-- C8.  `addRecord` with an argument count other than four fails with the
arity error and leaves the world (ledger and trace) untouched: no ledger put
is performed. -/
theorem addRecord_arity_error (st : Stub) (args : List String)
    (h : args.length ≠ 4) :
    addRecord st args
      = (.error "Incorrect arguments. Expecting a key and a value", st) := by
  unfold addRecord
  rw [if_pos h]

/-- Witness for C8 at a three-argument call. -/
theorem addRecord_arity_error_witness :
    addRecord st0 ["a", "b", "c"]
      = (.error "Incorrect arguments. Expecting a key and a value", st0) :=
  addRecord_arity_error st0 ["a", "b", "c"] (by decide)

/-- C9.  If retrieval of the transient map fails, `Invoke` fails immediately
with the transient error for every operation name and arguments — including
`addRecord`/`getRecord` — and the world is untouched: no ledger read or
write happens. -/
theorem invoke_transient_failure (c : Cipher) (st : Stub) (fn : String)
    (args : List String) (e : String) :
    Invoke c st (.error e) fn args
      = (.error ("Could not retrieve transient, err " ++ e), st) := rfl

/-- C3.  An `encRecord` invocation whose transient map lacks `ENCKEY`, and a
`decRecord` invocation whose transient map lacks `DECKEY`, are rejected by
the dispatcher with the missing-secret error before delegating; the world is
returned untouched, so no ledger read/write and no cryptographic work
happened. -/
theorem invoke_missing_secret_rejected (c : Cipher) (st : Stub) (tE tD : TMap)
    (argsE argsD : List String)
    (hE : tHas tE ENCKEY = false) (hD : tHas tD DECKEY = false) :
    Invoke c st (.ok tE) "encRecord" argsE
      = (.error ("Expected transient encryption key " ++ ENCKEY), st) ∧
    Invoke c st (.ok tD) "decRecord" argsD
      = (.error ("Expected transient decryption key " ++ DECKEY), st) := by
  constructor
  · simp [Invoke, hE]
  · simp [Invoke, hD]

/-- Witness for C3: empty transient map for `encRecord`; a map holding only
`ENCKEY` for `decRecord`. -/
theorem invoke_missing_secret_rejected_witness :
    Invoke idCipher st0 (.ok []) "encRecord" ["a", "b", "c", "d"]
      = (.error ("Expected transient encryption key " ++ ENCKEY), st0) ∧
    Invoke idCipher st0 (.ok [(ENCKEY, "x")]) "decRecord" ["a", "b"]
      = (.error ("Expected transient decryption key " ++ DECKEY), st0) :=
  invoke_missing_secret_rejected idCipher st0 [] [(ENCKEY, "x")]
    ["a", "b", "c", "d"] ["a", "b"] rfl rfl

/-- `addRecord` on a well-formed four-argument call with a non-faulting put:
the composite value is written under the composite key. -/
theorem addRecord_ok (st : Stub) (ns id f1 f2 : String)
    (h : (ns ++ ":" ++ id) ∉ st.putFails) :
    addRecord st [ns, id, f1, f2]
      = (.ok (f1 ++ ":" ++ f2),
         { st with ledger := (ns ++ ":" ++ id, f1 ++ ":" ++ f2) :: st.ledger,
                   trace := LedgerOp.put (ns ++ ":" ++ id) (f1 ++ ":" ++ f2) :: st.trace }) := by
  simp [addRecord, putState, h]

/-- `getRecord` on a key bound to `v` returns everything in `v` before its
first colon. -/
theorem getRecord_found (st : Stub) (ns id v : String)
    (hg : (ns ++ ":" ++ id) ∉ st.getFails)
    (hv : List.lookup (ns ++ ":" ++ id) st.ledger = some v) :
    getRecord st [ns, id]
      = (.ok (beforeColon v),
         { st with trace := LedgerOp.get (ns ++ ":" ++ id) :: st.trace }) := by
  simp [getRecord, getState, hg, hv, splitColon_headD]

/-- C4, counterexample to the claim as stated: with `ENCKEY` present but of
invalid AES-256 length and only three arguments, `encRecord` fails with the
crypto-init error, not with the arity error. -/
theorem encRecord_arity_counterexample :
    (Invoke idCipher st0 (.ok [(ENCKEY, "k")]) "encRecord" ["a", "b", "c"]).1
      = .error "entities.NewAES256EncrypterEntity failed, err invalid key length for AES-256" ∧
    (Invoke idCipher st0 (.ok [(ENCKEY, "k")]) "encRecord" ["a", "b", "c"]).1
      ≠ .error "Expected 4 parameters to function Encrypter" := by
  constructor
  · rfl
  · decide

/-- C4, amended.  If the transient map holds an `ENCKEY` entry of valid
AES-256 length (so that the cipher-context construction, which the code
performs first, succeeds), an `encRecord` invocation with an argument count
other than four fails with the arity error and the world is untouched. -/
theorem encRecord_arity_argument_error (c : Cipher) (st : Stub) (tMap : TMap)
    (args : List String) (k : String)
    (hk : List.lookup ENCKEY tMap = some k) (hlen : k.length = 32)
    (hargs : args.length ≠ 4) :
    Invoke c st (.ok tMap) "encRecord" args
      = (.error "Expected 4 parameters to function Encrypter", st) := by
  simp [Invoke, tHas, tGet, hk, Encrypter, mkAES256Entity, hlen, hargs, wrapResult]

/-- Witness for the amended C4 at a three-argument call with a 32-byte key. -/
theorem encRecord_arity_argument_error_witness :
    Invoke idCipher st0 (.ok [(ENCKEY, aesKey)]) "encRecord" ["a", "b", "c"]
      = (.error "Expected 4 parameters to function Encrypter", st0) :=
  encRecord_arity_argument_error idCipher st0 [(ENCKEY, aesKey)] ["a", "b", "c"]
    aesKey rfl rfl (by decide)

/-- C5, counterexample to the claim as stated: when the put on composite key
`alpha:beta` faults, the error message names the namespace (first argument)
`alpha`, not the id (second argument) `beta`. -/
theorem addRecord_put_fail_counterexample :
    (addRecord ⟨[], ["alpha:beta"], [], []⟩ ["alpha", "beta", "f1", "f2"]).1
      = .error "Failed to set asset: alpha" ∧
    ("Failed to set asset: alpha" : String) ≠ "Failed to set asset: beta" := by
  constructor
  · rfl
  · decide

/-- C5, amended.  When the underlying put faults, `addRecord` fails with the
storage-write error whose message identifies the namespace (the first
argument), and the world — in particular the ledger — is unchanged. -/
theorem addRecord_put_fail_error (st : Stub) (ns id f1 f2 : String)
    (h : (ns ++ ":" ++ id) ∈ st.putFails) :
    addRecord st [ns, id, f1, f2] = (.error ("Failed to set asset: " ++ ns), st) := by
  simp [addRecord, putState, h]

/-- Witness for the amended C5 on a ledger that faults on `alpha:beta`. -/
theorem addRecord_put_fail_error_witness :
    addRecord ⟨[], ["alpha:beta"], [], []⟩ ["alpha", "beta", "f1", "f2"]
      = (.error "Failed to set asset: alpha", ⟨[], ["alpha:beta"], [], []⟩) :=
  addRecord_put_fail_error ⟨[], ["alpha:beta"], [], []⟩ "alpha" "beta" "f1" "f2" (by decide)

/-- C6.  On a composite key never written (no binding in the ledger, no
read fault), `getRecord` fails with the not-found error, and `decRecord`
(invoked with a valid-length `DECKEY`, so that it reaches the lookup) fails
with the not-found error of the spec-modelled `getStateAndDecrypt`. -/
theorem notfound_getRecord_decRecord (c : Cipher) (st : Stub) (ns id k iv : String)
    (hnone : List.lookup (ns ++ ":" ++ id) st.ledger = none)
    (hget : (ns ++ ":" ++ id) ∉ st.getFails)
    (hk : k.length = 32) :
    (Invoke c st (.ok []) "getRecord" [ns, id]).1 = .error ("Asset not found: " ++ ns) ∧
    (Invoke c st (.ok [(DECKEY, k), (IV, iv)]) "decRecord" [ns, id]).1
      = .error "getStateAndDecrypt failed, err no ciphertext to decrypt" := by
  constructor
  · simp [Invoke, getRecord, getState, hget, hnone, wrapResult]
  · simp [Invoke, tHas, tGet, DECKEY, IV, List.lookup, Decrypter, mkAES256Entity, hk,
          getStateAndDecrypt, getState, hget, hnone, wrapResult]

/-- Witness for C6 on the empty ledger at `("n", "i")`. -/
theorem notfound_getRecord_decRecord_witness :
    (Invoke idCipher st0 (.ok []) "getRecord" ["n", "i"]).1 = .error "Asset not found: n" ∧
    (Invoke idCipher st0 (.ok [(DECKEY, aesKey), (IV, "iv")]) "decRecord" ["n", "i"]).1
      = .error "getStateAndDecrypt failed, err no ciphertext to decrypt" :=
  notfound_getRecord_decRecord idCipher st0 "n" "i" aesKey "iv" rfl (by decide) rfl

/-- C7, counterexample to the claim as stated: after `addRecord("n","i","x","y")`
then `addRecord("n","i","a:b","z")`, `getRecord("n","i")` returns `a`, not the
second value field1 `a:b` (the read truncates at the first colon). -/
theorem addRecord_overwrite_counterexample :
    (getRecord (addRecord (addRecord st0 ["n", "i", "x", "y"]).2
        ["n", "i", "a:b", "z"]).2 ["n", "i"]).1 = .ok "a" ∧
    (Except.ok "a" : Except String String) ≠ .ok "a:b" := by
  constructor
  · rfl
  · simp

/-- C7, amended.  Two successive successful `addRecord` calls on the same
`(namespace, id)` leave only the second value retrievable: the ledger entry
at the composite key holds the serialization of the second value, and
`getRecord` returns the second value field1, provided that field1 contains
no colon. -/
theorem addRecord_overwrite (st : Stub) (ns id f1 f2 f1' f2' : String)
    (hput : (ns ++ ":" ++ id) ∉ st.putFails)
    (hget : (ns ++ ":" ++ id) ∉ st.getFails)
    (h1' : colonFree f1') :
    (addRecord st [ns, id, f1, f2]).1 = .ok (f1 ++ ":" ++ f2) ∧
    (addRecord (addRecord st [ns, id, f1, f2]).2 [ns, id, f1', f2']).1
      = .ok (f1' ++ ":" ++ f2') ∧
    List.lookup (ns ++ ":" ++ id)
        (addRecord (addRecord st [ns, id, f1, f2]).2 [ns, id, f1', f2']).2.ledger
      = some (f1' ++ ":" ++ f2') ∧
    (getRecord (addRecord (addRecord st [ns, id, f1, f2]).2 [ns, id, f1', f2']).2
        [ns, id]).1 = .ok f1' := by
  refine ⟨?_, ?_, ?_, ?_⟩ <;>
    simp [addRecord, putState, getRecord, getState, hput, hget, List.lookup,
          splitColon_headD, beforeColon_append f1' f2' h1']

/-- Witness for the amended C7 at `("n","i")` with values `("x","y")` then
`("p","q")`. -/
theorem addRecord_overwrite_witness :
    (addRecord st0 ["n", "i", "x", "y"]).1 = .ok "x:y" ∧
    (addRecord (addRecord st0 ["n", "i", "x", "y"]).2 ["n", "i", "p", "q"]).1 = .ok "p:q" ∧
    List.lookup ("n" ++ ":" ++ "i")
        (addRecord (addRecord st0 ["n", "i", "x", "y"]).2 ["n", "i", "p", "q"]).2.ledger
      = some "p:q" ∧
    (getRecord (addRecord (addRecord st0 ["n", "i", "x", "y"]).2 ["n", "i", "p", "q"]).2
        ["n", "i"]).1 = .ok "p" :=
  addRecord_overwrite st0 "n" "i" "x" "y" "p" "q" (by decide) (by decide) (by decide)

/-- C10.  A successful `getRecord` returns the substring of the stored bytes
strictly before the first colon — the whole stored string when it has no
colon — and the split always yields at least one element, so the success
path cannot fail on a malformed stored value.  In particular, after an
`addRecord` whose field1 contains a colon, `getRecord` returns only the part
of field1 before its first colon, which differs from field1. -/
theorem getRecord_first_component (st : Stub) (ns id v : String)
    (hget : (ns ++ ":" ++ id) ∉ st.getFails)
    (hv : List.lookup (ns ++ ":" ++ id) st.ledger = some v) :
    (getRecord st [ns, id]).1 = .ok (beforeColon v) ∧
    (colonFree v → (getRecord st [ns, id]).1 = .ok v) ∧
    1 ≤ (splitColon v).length ∧
    (∀ f1 f2 : String, ':' ∈ f1.data → (ns ++ ":" ++ id) ∉ st.putFails →
      (getRecord (addRecord st [ns, id, f1, f2]).2 [ns, id]).1 = .ok (beforeColon f1) ∧
      beforeColon f1 ≠ f1) := by
  refine ⟨?_, ?_, ?_, ?_⟩
  · rw [getRecord_found st ns id v hget hv]
  · intro hcf
    rw [getRecord_found st ns id v hget hv, beforeColon_of_colonFree v hcf]
  · exact List.length_pos.mpr (splitColonAux_ne_nil _ _)
  · intro f1 f2 hc hput
    constructor
    · simp [addRecord, putState, getRecord, getState, hput, hget, List.lookup,
            splitColon_headD, beforeColon_append_of_mem f1 f2 hc]
    · intro heq
      exact colonFree_beforeColon f1 (by rw [heq]; exact hc)

/-- Witness for C10 on a ledger binding `n:i` to `a:b`. -/
theorem getRecord_first_component_witness :
    (getRecord ⟨[("n:i", "a:b")], [], [], []⟩ ["n", "i"]).1 = .ok "a" ∧
    1 ≤ (splitColon "a:b").length :=
  ⟨(getRecord_first_component ⟨[("n:i", "a:b")], [], [], []⟩ "n" "i" "a:b"
      (by decide) rfl).1,
   (getRecord_first_component ⟨[("n:i", "a:b")], [], [], []⟩ "n" "i" "a:b"
      (by decide) rfl).2.2.1⟩

/-- C2.  Encrypted round-trip: with colon-free components, a 32-byte key and
any IV, `encRecord` then `decRecord` with the same key/IV succeeds and
returns field1 unchanged, for any cipher collaborator whose decryption
inverts its encryption (the `encryptAndPutState`/`getStateAndDecrypt`
helpers are spec-modelled). -/
theorem encRecord_decRecord_roundtrip (c : Cipher) (st : Stub)
    (ns id f1 f2 k iv : String)
    (_hns : colonFree ns) (_hid : colonFree id) (h1 : colonFree f1) (_h2 : colonFree f2)
    (hkey : k.length = 32)
    (hinv : ∀ pt, c.dec k iv (c.enc k iv pt) = some pt)
    (hput : (ns ++ ":" ++ id) ∉ st.putFails)
    (hget : (ns ++ ":" ++ id) ∉ st.getFails) :
    (Invoke c st (.ok [(ENCKEY, k), (IV, iv)]) "encRecord" [ns, id, f1, f2]).1
      = .success (f1 ++ ":" ++ f2) ∧
    (Invoke c (Invoke c st (.ok [(ENCKEY, k), (IV, iv)]) "encRecord" [ns, id, f1, f2]).2
       (.ok [(DECKEY, k), (IV, iv)]) "decRecord" [ns, id]).1 = .success f1 := by
  have henc : Invoke c st (.ok [(ENCKEY, k), (IV, iv)]) "encRecord" [ns, id, f1, f2]
      = (.success (f1 ++ ":" ++ f2),
         { st with
             ledger := (ns ++ ":" ++ id, c.enc k iv (f1 ++ ":" ++ f2)) :: st.ledger,
             trace := LedgerOp.put (ns ++ ":" ++ id) (c.enc k iv (f1 ++ ":" ++ f2))
                        :: LedgerOp.encOp :: st.trace }) := by
    simp [Invoke, tHas, tGet, ENCKEY, IV, List.lookup, Encrypter, mkAES256Entity, hkey,
          encryptAndPutState, putState, hput, wrapResult]
  refine ⟨by rw [henc], ?_⟩
  rw [henc]
  simp [Invoke, tHas, tGet, DECKEY, ENCKEY, IV, List.lookup, Decrypter, mkAES256Entity,
        hkey, getStateAndDecrypt, getState, hget, hinv, wrapResult, splitColon_headD,
        beforeColon_append f1 f2 h1]

/-- Witness for C2 with the identity cipher, a 32-byte key, at
`("acct", "8", "bob", "50")`. -/
theorem encRecord_decRecord_roundtrip_witness :
    (Invoke idCipher st0 (.ok [(ENCKEY, aesKey), (IV, "iv")]) "encRecord"
        ["acct", "8", "bob", "50"]).1 = .success "bob:50" ∧
    (Invoke idCipher
       (Invoke idCipher st0 (.ok [(ENCKEY, aesKey), (IV, "iv")]) "encRecord"
          ["acct", "8", "bob", "50"]).2
       (.ok [(DECKEY, aesKey), (IV, "iv")]) "decRecord" ["acct", "8"]).1
      = .success "bob" :=
  encRecord_decRecord_roundtrip idCipher st0 "acct" "8" "bob" "50" aesKey "iv"
    (by decide) (by decide) (by decide) (by decide) rfl (fun _ => rfl)
    (by decide) (by decide)

end CvChain
